import Mathlib

/-!
Verification of the AlgoTrader ledger/accounting core.

This file gives a shallow embedding, in Lean 4, of the accounting core of the
AlgoTrader repository (`AlgoTrader/position.py`, `AlgoTrader/portfolio.py`,
`AlgoTrader/broker.py`) and proves the testable properties stated in the
specification against it.

Modelling conventions:
- Python `float` money amounts are modelled as exact rationals (`ℚ`).
- Python exceptions are modelled with `Except`: `InsufficientFundsError` and
  `ValueError` map to dedicated error values, `AssertionError` (a fatal
  programming error in the source) maps to `assertionError`.
- `Portfolio` operations return `Except (PortfolioError × Portfolio) Portfolio`:
  the error carries the portfolio state at the moment the exception propagates,
  so the mutation order of the Python source (which mutates in place) is
  preserved faithfully; an operation that mutates some state and then raises
  leaves that partial mutation visible in the carried state.
- Database persistence (connections, ledger INSERTs, ids allocated by the
  database) is elided: positions are identified by their index in the owning
  portfolio's position list, and ledger rows are not modelled.  Timestamps
  are opaque integers.
-/

namespace AlgoTrader

/-- Errors raised by the accounting core.  `insufficientFunds` models
`InsufficientFundsError` (recoverable), `valueError` models Python's
`ValueError` and `assertionError` models a failed `assert` (fatal). -/
inductive PortfolioError where
  | insufficientFunds
  | valueError
  | assertionError
deriving DecidableEq

deriving instance DecidableEq for Except

/-- One lot of a security, from `AlgoTrader/position.py` (`class Position`).
The database connection, portfolio id and position id of the source are
elided (they do not affect the accounting state); default field values are
the initial values assigned by `Position.__init__`. -/
structure Position where
  ticker : String
  quantity : ℤ
  entry_price : ℚ
  exit_price : ℚ := 0
  opened_timestamp : ℤ
  closed_timestamp : Option ℤ := none
  dividends_received : ℚ := 0
  cash_settlements_received : ℚ := 0
  is_closed : Bool := false
deriving DecidableEq

namespace Position

/-- `Position.entry_value`: `self._quantity * self._entry_price`. -/
def entry_value (p : Position) : ℚ := (p.quantity : ℚ) * p.entry_price

/-- `Position.cost`: returns `self.entry_value`. -/
def cost (p : Position) : ℚ := p.entry_value

/-- `Position.exit_value`: asserts `self.is_closed` (modelled as `none` on an
open position) and returns `self.quantity * self._exit_price`. -/
def exit_value (p : Position) : Option ℚ :=
  if p.is_closed then some ((p.quantity : ℚ) * p.exit_price) else none

/-- `Position.adjustments`: `self.dividends_received + self.cash_settlements_received`. -/
def adjustments (p : Position) : ℚ := p.dividends_received + p.cash_settlements_received

/-- `Position.realised_pl`: `(self.exit_value - self.entry_value) + self.cash_settlements_received`.
The access to `exit_value` asserts that the position is closed, hence the
`Option`. -/
def realised_pl (p : Position) : Option ℚ :=
  match p.exit_value with
  | some ev => some ((ev - p.entry_value) + p.cash_settlements_received)
  | none => none

/-- `Position.unrealised_pl`: `self._quantity * (current_price - self._entry_price)`. -/
def unrealised_pl (p : Position) (current_price : ℚ) : ℚ :=
  (p.quantity : ℚ) * (current_price - p.entry_price)

/-- `Position.current_value`: `self.quantity * current_price`. -/
def current_value (p : Position) (current_price : ℚ) : ℚ :=
  (p.quantity : ℚ) * current_price

/-- `Position.adjust_for_dividend`: asserts `dividend_per_share > 0`, then adds
`quantity * dividend_per_share` to the dividends received and returns that
total.  Note: the source has no check that the position is still open. -/
def adjust_for_dividend (dividend_per_share : ℚ) (p : Position) :
    Except PortfolioError (ℚ × Position) :=
  if dividend_per_share > 0 then
    let total_dividend_amount := (p.quantity : ℚ) * dividend_per_share
    .ok (total_dividend_amount,
      { p with dividends_received := p.dividends_received + total_dividend_amount })
  else .error .assertionError

/-- `Position.adjust_for_stock_split`: asserts the position is open, computes
`whole, frac = divmod(quantity * coefficient, 1.0)` (for a positive divisor
this is the floor and the fractional part), an adjusted price
`entry_price / coefficient` and a cash settlement `frac * adjusted_price`
which is added to the cash settlements received.  Returns the 4-tuple
`(whole_shares, fractional_shares, adjusted_price, cash_settlement_amount)`.
Note: the source does not modify `quantity`. -/
def adjust_for_stock_split (split_coefficient : ℚ) (p : Position) :
    Except PortfolioError ((ℚ × ℚ × ℚ × ℚ) × Position) :=
  if p.is_closed then .error .assertionError
  else
    let x := (p.quantity : ℚ) * split_coefficient
    let whole_shares : ℚ := (⌊x⌋ : ℚ)
    let fractional_shares : ℚ := x - (⌊x⌋ : ℚ)
    let adjusted_price := p.entry_price / split_coefficient
    let cash_settlement_amount := fractional_shares * adjusted_price
    .ok ((whole_shares, fractional_shares, adjusted_price, cash_settlement_amount),
      { p with cash_settlements_received :=
          p.cash_settlements_received + cash_settlement_amount })

/-- `Position.close`: asserts the position is not already closed, records the
exit price and timestamp, marks the position closed and returns the exit
value. -/
def close (price : ℚ) (timestamp : ℤ) (p : Position) :
    Except PortfolioError (ℚ × Position) :=
  if p.is_closed then .error .assertionError
  else
    let p' := { p with exit_price := price, is_closed := true,
                       closed_timestamp := some timestamp }
    .ok ((p'.quantity : ℚ) * price, p')

end Position

/-- A portfolio, from `AlgoTrader/portfolio.py` (`class Portfolio`).  Owner
name, creation date and the database connection are elided.  The source keeps
several materialised views of the position set (`open_positions`,
`closed_positions`, `open_positions_by_ticker`, `positions_by_id`) that are
updated in lockstep with the `positions` set; here positions are kept in one
list (ordered by creation, so list indices play the role of position ids) and
the views are derived from the `is_closed` flags.  Default field values are
the initial values assigned by `Portfolio.__init__`. -/
structure Portfolio where
  balance : ℚ := 0
  contribution : ℚ := 0
  taxes_paid : ℚ := 0
  taxes_owing : ℚ := 0
  tickers : List String := []
  positions : List Position := []
deriving DecidableEq

/-- Result of a portfolio operation.  On error, the second component carries
the portfolio state at the time the exception propagates (the Python source
mutates in place, so partial mutations made before a raise stay visible). -/
abbrev PResult := Except (PortfolioError × Portfolio) Portfolio

namespace Portfolio

/-- The derived view `Portfolio.open_positions`. -/
def open_positions (p : Portfolio) : List Position :=
  p.positions.filter (fun pos => ¬pos.is_closed)

/-- The derived view `Portfolio.closed_positions`. -/
def closed_positions (p : Portfolio) : List Position :=
  p.positions.filter (fun pos => pos.is_closed)

/-- `Portfolio._pay`: raises `ValueError` on a negative amount, otherwise adds
the (positive) amount to the balance. -/
def pay (amount : ℚ) (p : Portfolio) : PResult :=
  if amount < 0 then .error (.valueError, p)
  else if amount > 0 then .ok { p with balance := p.balance + amount }
  else .ok p

/-- `Portfolio._deduct`: raises `InsufficientFundsError` if the amount exceeds
the balance, otherwise subtracts it from the balance. -/
def deduct (amount : ℚ) (p : Portfolio) : PResult :=
  if amount > p.balance then .error (.insufficientFunds, p)
  else .ok { p with balance := p.balance - amount }

/-- `Portfolio.deposit`: `self._pay(amount)` then `self.contribution += amount`. -/
def deposit (amount : ℚ) (p : Portfolio) : PResult :=
  match p.pay amount with
  | .error e => .error e
  | .ok p' => .ok { p' with contribution := p'.contribution + amount }

/-- `Portfolio.withdraw`: `self._deduct(amount)`. -/
def withdraw (amount : ℚ) (p : Portfolio) : PResult :=
  p.deduct amount

/-- `Portfolio.deduct_taxes`: pays `min(balance, amount)`, records it as taxes
paid and carries the shortfall as taxes owing.  (The source also returns the
amount actually paid; that return value is dropped here.) -/
def deduct_taxes (amount : ℚ) (p : Portfolio) : PResult :=
  let amount_to_pay := min p.balance amount
  let amount_owing := amount - amount_to_pay
  match p.deduct amount_to_pay with
  | .error e => .error e
  | .ok p1 => .ok { p1 with taxes_paid := p1.taxes_paid + amount_to_pay,
                            taxes_owing := amount_owing }

/-- `Portfolio.open_position`: deducts `price * quantity` first (raising
`InsufficientFundsError` before any mutation if the funds are missing), then
constructs the `Position` (whose constructor asserts `quantity >= 1`) and
indexes it. -/
def open_position (ticker : String) (price : ℚ) (quantity : ℤ)
    (timestamp : ℤ) (p : Portfolio) : PResult :=
  match p.deduct (price * (quantity : ℚ)) with
  | .error e => .error e
  | .ok p1 =>
    if quantity < 1 then .error (.assertionError, p1)
    else
      let position : Position :=
        { ticker := ticker, quantity := quantity, entry_price := price,
          opened_timestamp := timestamp }
      .ok { p1 with
        tickers := if ticker ∈ p1.tickers then p1.tickers else p1.tickers ++ [ticker],
        positions := p1.positions ++ [position] }

/-- `Portfolio.close_position`: asserts the position belongs to this portfolio
(here: the index is in range), closes it via `Position.close` (which asserts it
was still open) and credits the exit value to the balance. -/
def close_position (i : ℕ) (price : ℚ) (timestamp : ℤ) (p : Portfolio) : PResult :=
  match p.positions[i]? with
  | none => .error (.assertionError, p)
  | some pos =>
    match pos.close price timestamp with
    | .error e => .error (e, p)
    | .ok (ev, pos') =>
      .ok { p with balance := p.balance + ev, positions := p.positions.set i pos' }

/-- `Portfolio.pay_dividend`: delegates to `Position.adjust_for_dividend`
(mutating the position) and then credits the returned total via `_pay`. -/
def pay_dividend (amount : ℚ) (i : ℕ) (p : Portfolio) : PResult :=
  match p.positions[i]? with
  | none => .error (.assertionError, p)
  | some pos =>
    match pos.adjust_for_dividend amount with
    | .error e => .error (e, p)
    | .ok (total, pos') =>
      Portfolio.pay total { p with positions := p.positions.set i pos' }

/-- `Portfolio.pay_cash_settlement`: credits the amount via `_pay`, then adds
it to the position's cash settlements received. -/
def pay_cash_settlement (amount : ℚ) (i : ℕ) (p : Portfolio) : PResult :=
  match p.positions[i]? with
  | none => .error (.assertionError, p)
  | some pos =>
    match p.pay amount with
    | .error e => .error e
    | .ok p1 =>
      let pos' := { pos with cash_settlements_received :=
                      pos.cash_settlements_received + amount }
      .ok { p1 with positions := p1.positions.set i pos' }

/-- `Portfolio.pay_for_buy_order`: `self._deduct(amount)`. -/
def pay_for_buy_order (amount : ℚ) (p : Portfolio) : PResult :=
  p.deduct amount

/-- `Portfolio.refund_unfilled_buy_order`: `self._pay(amount)`. -/
def refund_unfilled_buy_order (amount : ℚ) (p : Portfolio) : PResult :=
  p.pay amount

end Portfolio

/-- The balance-affecting calls of the `Portfolio` public interface, as one
operation language (positions are referred to by their index in the
portfolio's position list). -/
inductive Op where
  | deposit (amount : ℚ)
  | withdraw (amount : ℚ)
  | open_position (ticker : String) (price : ℚ) (quantity : ℤ) (timestamp : ℤ)
  | close_position (i : ℕ) (price : ℚ) (timestamp : ℤ)
  | pay_dividend (amount : ℚ) (i : ℕ)
  | pay_cash_settlement (amount : ℚ) (i : ℕ)
  | pay_for_buy_order (amount : ℚ)
  | refund_unfilled_buy_order (amount : ℚ)
  | deduct_taxes (amount : ℚ)
deriving DecidableEq

/-- Dispatch one operation to the corresponding `Portfolio` method. -/
def Op.step (op : Op) (p : Portfolio) : PResult :=
  match op with
  | .deposit amount => p.deposit amount
  | .withdraw amount => p.withdraw amount
  | .open_position ticker price quantity timestamp =>
      p.open_position ticker price quantity timestamp
  | .close_position i price timestamp => p.close_position i price timestamp
  | .pay_dividend amount i => p.pay_dividend amount i
  | .pay_cash_settlement amount i => p.pay_cash_settlement amount i
  | .pay_for_buy_order amount => p.pay_for_buy_order amount
  | .refund_unfilled_buy_order amount => p.refund_unfilled_buy_order amount
  | .deduct_taxes amount => p.deduct_taxes amount

/-- An operation's monetary arguments are non-negative. -/
def Op.nonneg : Op → Prop
  | .deposit amount => 0 ≤ amount
  | .withdraw amount => 0 ≤ amount
  | .open_position _ price quantity _ => 0 ≤ price ∧ 0 ≤ quantity
  | .close_position _ price _ => 0 ≤ price
  | .pay_dividend amount _ => 0 ≤ amount
  | .pay_cash_settlement amount _ => 0 ≤ amount
  | .pay_for_buy_order amount => 0 ≤ amount
  | .refund_unfilled_buy_order amount => 0 ≤ amount
  | .deduct_taxes amount => 0 ≤ amount

instance : DecidablePred Op.nonneg := fun op =>
  match op with
  | .deposit amount => inferInstanceAs (Decidable (0 ≤ amount))
  | .withdraw amount => inferInstanceAs (Decidable (0 ≤ amount))
  | .open_position _ price quantity _ =>
      inferInstanceAs (Decidable (0 ≤ price ∧ 0 ≤ quantity))
  | .close_position _ price _ => inferInstanceAs (Decidable (0 ≤ price))
  | .pay_dividend amount _ => inferInstanceAs (Decidable (0 ≤ amount))
  | .pay_cash_settlement amount _ => inferInstanceAs (Decidable (0 ≤ amount))
  | .pay_for_buy_order amount => inferInstanceAs (Decidable (0 ≤ amount))
  | .refund_unfilled_buy_order amount => inferInstanceAs (Decidable (0 ≤ amount))
  | .deduct_taxes amount => inferInstanceAs (Decidable (0 ≤ amount))

/-- The portfolio state an operation leaves behind, whether it completed
normally or raised (the source mutates in place, so on a raise the caller
still holds the carried state). -/
def state_of (r : PResult) : Portfolio :=
  match r with
  | .ok p => p
  | .error (_, p) => p

/-- Run a sequence of operations against a portfolio; a driver (e.g. a trading
strategy) catches any exception and continues with the state left behind. -/
def run_catch (ops : List Op) (p : Portfolio) : Portfolio :=
  match ops with
  | [] => p
  | op :: rest => run_catch rest (state_of (op.step p))

/-- The solvency invariant: non-negative balance, and every recorded position
holds at least one share (as asserted by the `Position` constructor). -/
def Solvent (p : Portfolio) : Prop :=
  0 ≤ p.balance ∧ ∀ pos ∈ p.positions, 1 ≤ pos.quantity

namespace TaxReport

/-- Insert a `(threshold, rate)` pair into a list that is sorted by descending
threshold. -/
def insert_desc (x : ℚ × ℚ) : List (ℚ × ℚ) → List (ℚ × ℚ)
  | [] => [x]
  | y :: ys => if y.1 ≤ x.1 then x :: y :: ys else y :: insert_desc x ys

/-- Sort a bracket table by descending threshold, as
`sorted(tax_brackets.keys(), reverse=True)` does in `TaxReport._calculate_tax`. -/
def sort_desc : List (ℚ × ℚ) → List (ℚ × ℚ)
  | [] => []
  | x :: xs => insert_desc x (sort_desc xs)

/-- The loop body of `TaxReport._calculate_tax`: walk the brackets (already in
descending-threshold order); for each bracket whose threshold the residual
amount still meets, tax the excess at that bracket's rate and reduce the
residual to the threshold (`residual_amount -= taxable_amount`). -/
def bracket_walk (brackets : List (ℚ × ℚ)) (residual_amount : ℚ) : ℚ :=
  match brackets with
  | [] => 0
  | (threshold, rate) :: rest =>
    if threshold ≤ residual_amount then
      rate * (residual_amount - threshold) + bracket_walk rest threshold
    else bracket_walk rest residual_amount

/-- `TaxReport._calculate_tax`: total tax for a net income under a bracket
table (a finite map from thresholds to rates, given here as a list of pairs
with distinct thresholds).  The source also returns per-bracket breakdown
dictionaries, which no property refers to; only the total is modelled. -/
def calculate_tax (net_income : ℚ) (tax_brackets : List (ℚ × ℚ)) : ℚ :=
  bracket_walk (sort_desc tax_brackets) net_income

/-- `TaxReport.net_gains`: `short_term_capital_gains + long_term_capital_gains`. -/
def net_gains (short_term_capital_gains long_term_capital_gains : ℚ) : ℚ :=
  short_term_capital_gains + long_term_capital_gains

/-- `TaxReport.deductible_losses`: `min(3000.00, abs(min(0.00, net_gains)))`. -/
def deductible_losses (short_term_capital_gains long_term_capital_gains : ℚ) : ℚ :=
  min 3000 |min 0 (net_gains short_term_capital_gains long_term_capital_gains)|

/-- `TaxReport.total_tax`:
`short_term_capital_gains_tax + long_term_capital_gains_tax - deductible_losses`,
where the two gross taxes are `_calculate_tax` applied to the two gain totals
with their respective bracket tables.  No flooring at zero is applied. -/
def total_tax (short_term_capital_gains long_term_capital_gains : ℚ)
    (ordinary_tax_rates capital_gains_tax_rates : List (ℚ × ℚ)) : ℚ :=
  calculate_tax short_term_capital_gains ordinary_tax_rates +
    calculate_tax long_term_capital_gains capital_gains_tax_rates -
    deductible_losses short_term_capital_gains long_term_capital_gains

end TaxReport

/-- The broker state relevant to the accounting claims, from
`AlgoTrader/broker.py` (`class Broker`).  Market data, the report schedule and
the database connection are elided, and a single portfolio is carried (the
source keys portfolios by id; the claims quantify over one portfolio at a
time).  `buy_order_queue` holds the `(ticker, quantity, price, order_date)`
tuples queued in batch mode (the portfolio id component is dropped), and
`transactions_queue` (pending ledger rows) is elided with the ledger. -/
structure Broker where
  portfolio : Portfolio
  buy_order_queue : List (String × ℤ × ℚ × ℤ) := []
  today : ℤ := 0
deriving DecidableEq

/-- Result of a broker operation, carrying the broker state on error just as
`PResult` does for portfolios. -/
abbrev BResult := Except (PortfolioError × Broker) Broker

/-- A transaction request, the argument bundle of `Broker._execute_transaction`
for each `TransactionType`.  Positions are referred to by index; `buy` carries
its ticker and quantity by construction (the source asserts their presence). -/
inductive BrokerTx where
  | deposit (amount : ℚ)
  | withdrawal (amount : ℚ)
  | buy (ticker : String) (quantity : ℤ) (price : ℚ)
  | sell (position_id : ℕ) (price : ℚ)
  | dividend (amount : ℚ) (position_id : ℕ)
  | cash_settlement (amount : ℚ) (position_id : ℕ)
  | tax (amount : ℚ)
deriving DecidableEq

namespace Broker

/-- Replace the broker's portfolio with the outcome of a portfolio call. -/
def lift (b : Broker) (r : PResult) : BResult :=
  match r with
  | .ok p => .ok { b with portfolio := p }
  | .error (e, p) => .error (e, { b with portfolio := p })

/-- `Broker._check_transaction_preconditions`: SELL, DIVIDEND and
CASH_SETTLEMENT require a registered position id (here: an index into the
portfolio's position list); BUY requires a ticker and a quantity, which the
`BrokerTx.buy` constructor carries by construction. -/
def check_transaction_preconditions (tx : BrokerTx) (b : Broker) : Bool :=
  match tx with
  | .sell i _ => decide (i < b.portfolio.positions.length)
  | .dividend _ i => decide (i < b.portfolio.positions.length)
  | .cash_settlement _ i => decide (i < b.portfolio.positions.length)
  | _ => true

/-- `Broker._execute_transaction` outside batch mode: check preconditions,
then dispatch to the portfolio (a BUY creates its position synchronously).
The ledger `INSERT` is elided. -/
def execute_transaction (tx : BrokerTx) (b : Broker) : BResult :=
  if b.check_transaction_preconditions tx then
    match tx with
    | .deposit amount => b.lift (b.portfolio.deposit amount)
    | .withdrawal amount => b.lift (b.portfolio.withdraw amount)
    | .buy ticker quantity price =>
        b.lift (b.portfolio.open_position ticker price quantity b.today)
    | .sell i price => b.lift (b.portfolio.close_position i price b.today)
    | .dividend amount i => b.lift (b.portfolio.pay_dividend amount i)
    | .cash_settlement amount i => b.lift (b.portfolio.pay_cash_settlement amount i)
    | .tax amount => b.lift (b.portfolio.deduct_taxes amount)
  else .error (.assertionError, b)

/-- `Broker._execute_transaction` with `_in_batch_mode = True`: identical to
the non-batch case except that a BUY is charged upfront via
`pay_for_buy_order(quantity * price)` and queued instead of creating a
position; every other transaction type still mutates the portfolio
immediately (only its ledger row is deferred). -/
def execute_transaction_batch (tx : BrokerTx) (b : Broker) : BResult :=
  if b.check_transaction_preconditions tx then
    match tx with
    | .deposit amount => b.lift (b.portfolio.deposit amount)
    | .withdrawal amount => b.lift (b.portfolio.withdraw amount)
    | .buy ticker quantity price =>
        match b.portfolio.pay_for_buy_order ((quantity : ℚ) * price) with
        | .error (e, p) => .error (e, { b with portfolio := p })
        | .ok p =>
          let queued := b.buy_order_queue ++ [(ticker, quantity, price, b.today)]
          .ok { b with portfolio := p, buy_order_queue := queued }
    | .sell i price => b.lift (b.portfolio.close_position i price b.today)
    | .dividend amount i => b.lift (b.portfolio.pay_dividend amount i)
    | .cash_settlement amount i => b.lift (b.portfolio.pay_cash_settlement amount i)
    | .tax amount => b.lift (b.portfolio.deduct_taxes amount)
  else .error (.assertionError, b)

/-- `Broker.__enter__`: clear the queues and mark batch mode. -/
def scope_enter (b : Broker) : Broker := { b with buy_order_queue := [] }

/-- The materialisation loop of `Broker.__exit__`: for each queued buy order,
refund the prepaid amount and open the position at the queued price. -/
def materialize_orders (orders : List (String × ℤ × ℚ × ℤ)) (b : Broker) : BResult :=
  match orders with
  | [] => .ok b
  | (ticker, quantity, price, order_date) :: rest =>
    match b.portfolio.refund_unfilled_buy_order ((quantity : ℚ) * price) with
    | .error (e, p) => .error (e, { b with portfolio := p })
    | .ok p1 =>
      match p1.open_position ticker price quantity order_date with
      | .error (e, p2) => .error (e, { b with portfolio := p2 })
      | .ok p2 => materialize_orders rest { b with portfolio := p2 }

/-- `Broker.__exit__`: materialise all queued buy orders (the batched database
`INSERT`s are elided). -/
def scope_exit (b : Broker) : BResult := b.materialize_orders b.buy_order_queue

/-- The broker state a broker call leaves behind. -/
def broker_state_of (r : BResult) : Broker :=
  match r with
  | .ok b => b
  | .error (_, b) => b

/-- The body of a `with broker:` block: execute the transactions in order; a
transaction that raises aborts the rest of the body (the exception propagates
out of the block, through `__exit__`). -/
def run_scope_body (txs : List BrokerTx) (b : Broker) : Broker :=
  match txs with
  | [] => b
  | tx :: rest =>
    match b.execute_transaction_batch tx with
    | .ok b' => run_scope_body rest b'
    | .error (_, b') => b'

/-- A whole batch scope: `__enter__`, the body, then `__exit__` (Python runs
`__exit__` even when the body raised, and the state it leaves behind is the
state after the scope, the exception then continuing to propagate). -/
def run_scope (txs : List BrokerTx) (b : Broker) : Broker :=
  broker_state_of (scope_exit (run_scope_body txs b.scope_enter))

/-- The stock-split branch of `Broker._process_adjustments`, for the open
position at index `i`: adjust the position for the split; if the cash
settlement is positive, execute a CASH_SETTLEMENT transaction for it; then, if
fewer than one whole share remains, close the position at price 0, otherwise
close it at its entry price and buy `int(whole_shares)` shares (`whole_shares`
is integral, so `int` truncation is its floor) at the adjusted price. -/
def process_split_for_position (split_coefficient : ℚ) (i : ℕ) (b : Broker) : BResult :=
  match b.portfolio.positions[i]? with
  | none => .error (.assertionError, b)
  | some position =>
    match position.adjust_for_stock_split split_coefficient with
    | .error e => .error (e, b)
    | .ok ((whole_shares, _fractional_shares, adjusted_price, cash_settlement_amount), pos1) =>
      let b1 : Broker :=
        { b with portfolio :=
            { b.portfolio with positions := b.portfolio.positions.set i pos1 } }
      let after_settlement : BResult :=
        if cash_settlement_amount > 0 then
          b1.execute_transaction (.cash_settlement cash_settlement_amount i)
        else .ok b1
      match after_settlement with
      | .error e => .error e
      | .ok b2 =>
        if whole_shares < 1 then b2.execute_transaction (.sell i 0)
        else
          match b2.execute_transaction (.sell i position.entry_price) with
          | .error e => .error e
          | .ok b3 =>
            b3.execute_transaction (.buy position.ticker ⌊whole_shares⌋ adjusted_price)

end Broker

/-! ## Properties -/

set_option maxRecDepth 2000

/-- C2: for every closed `Position`, `cost = quantity * entry_price`,
`exit_value = quantity * exit_price` and
`realised_pl = (exit_value - cost) + cash_settlements_received` (dividends
received do not enter `realised_pl`); `unrealised_pl price` is
`quantity * (price - entry_price)` and `current_value price` is
`quantity * price`; on an open position, `exit_value` and `realised_pl` are
undefined (a fatal assertion, modelled by `none`). -/
theorem position_derived_values (pos : Position) (price : ℚ)
    (hclosed : pos.is_closed = true) :
    pos.cost = (pos.quantity : ℚ) * pos.entry_price ∧
    pos.unrealised_pl price = (pos.quantity : ℚ) * (price - pos.entry_price) ∧
    pos.current_value price = (pos.quantity : ℚ) * price ∧
    pos.exit_value = some ((pos.quantity : ℚ) * pos.exit_price) ∧
    pos.realised_pl = some (((pos.quantity : ℚ) * pos.exit_price -
      (pos.quantity : ℚ) * pos.entry_price) + pos.cash_settlements_received) ∧
    (∀ d : ℚ, Position.realised_pl { pos with dividends_received := d } =
      pos.realised_pl) ∧
    (∀ q : Position, q.is_closed = false → q.exit_value = none ∧ q.realised_pl = none) :=
  by
  refine ⟨rfl, rfl, rfl, ?_, ?_, ?_, ?_⟩
  · simp [Position.exit_value, hclosed]
  · simp [Position.realised_pl, Position.exit_value, Position.entry_value, hclosed]
  · intro d
    simp [Position.realised_pl, Position.exit_value, Position.entry_value]
  · intro q hq
    simp [Position.realised_pl, Position.exit_value, hq]

/-- A sample closed position used to witness C2: 100 shares bought at 50,
sold at 60, with 7 of dividends and 3 of cash settlements received. -/
def sample_closed_position : Position :=
  { ticker := "ABC", quantity := 100, entry_price := 50, exit_price := 60,
    opened_timestamp := 0, closed_timestamp := some 1, dividends_received := 7,
    cash_settlements_received := 3, is_closed := true }

/-- Witness for C2 at `sample_closed_position`. -/
theorem position_derived_values_witness :
    sample_closed_position.cost =
      (sample_closed_position.quantity : ℚ) * sample_closed_position.entry_price ∧
    sample_closed_position.exit_value =
      some ((sample_closed_position.quantity : ℚ) * sample_closed_position.exit_price) ∧
    sample_closed_position.realised_pl = some 1003 :=
  by
  have h := position_derived_values sample_closed_position 60 rfl
  refine ⟨h.1, h.2.2.2.1, ?_⟩
  rw [h.2.2.2.2.1]
  norm_num [sample_closed_position]

/-- An open position of 3 shares at entry price 30, the configuration named
by C4's concrete example. -/
def three_share_position : Position :=
  { ticker := "XYZ", quantity := 3, entry_price := 30, opened_timestamp := 0 }

/-- C4 counterexample: adjusting `three_share_position` (quantity 3) for a
1.5 stock split returns whole = 4, frac = 0.5, adjusted price 20 and cash
settlement 10 and adds the settlement to the cash settlements received, but
the returned position still has quantity 3, not 4: `adjust_for_stock_split`
never writes the quantity. -/
theorem stock_split_quantity_counterexample :
    three_share_position.adjust_for_stock_split (3/2) =
      .ok ((4, 1/2, 20, 10),
        { three_share_position with cash_settlements_received := 10 }) ∧
    ({ three_share_position with cash_settlements_received := 10 } : Position).quantity
      = 3 ∧
    ¬ ({ three_share_position with cash_settlements_received := 10 } : Position).quantity
      = 4 := by
  with_unfolding_all decide

/-- C4 (amended): for every open position, `adjust_for_stock_split c` computes
`whole, frac = divmod(quantity * c, 1)`, `adjusted_price = entry_price / c`
and `cash_settlement = frac * adjusted_price`, adds the cash settlement to
cash-settlements-received and returns
`(whole, frac, adjusted_price, cash_settlement)`; the position's quantity is
left unchanged (the broker instead closes the lot and reopens it at the new
share count). -/
theorem stock_split_adjustment (pos : Position) (c : ℚ)
    (hopen : pos.is_closed = false) :
    pos.adjust_for_stock_split c =
      .ok (((⌊(pos.quantity : ℚ) * c⌋ : ℚ),
            (pos.quantity : ℚ) * c - (⌊(pos.quantity : ℚ) * c⌋ : ℚ),
            pos.entry_price / c,
            ((pos.quantity : ℚ) * c - (⌊(pos.quantity : ℚ) * c⌋ : ℚ)) *
              (pos.entry_price / c)),
        { pos with cash_settlements_received := pos.cash_settlements_received +
            ((pos.quantity : ℚ) * c - (⌊(pos.quantity : ℚ) * c⌋ : ℚ)) *
              (pos.entry_price / c) }) ∧
    (∀ r pos', pos.adjust_for_stock_split c = .ok (r, pos') →
      pos'.quantity = pos.quantity) := by
  constructor
  · simp [Position.adjust_for_stock_split, hopen]
  · intro r pos' h
    simp only [Position.adjust_for_stock_split, hopen, Bool.false_eq_true,
      if_false, Except.ok.injEq, Prod.mk.injEq] at h
    rw [← h.2]

/-- Witness for C4 (amended) at `three_share_position` with coefficient 1.5. -/
theorem stock_split_adjustment_witness :
    three_share_position.adjust_for_stock_split (3/2) =
      .ok ((4, 1/2, 20, 10),
        { three_share_position with cash_settlements_received := 10 }) :=
  ((stock_split_adjustment three_share_position (3/2) rfl).1).trans
    (by norm_num [three_share_position])

/-- A closed position of 3 shares used for C9's counterexample. -/
def closed_three_share_position : Position :=
  { three_share_position with exit_price := 40, closed_timestamp := some 9,
                              is_closed := true }

/-- C9 counterexample: `adjust_for_dividend` called on a closed position is
not a fatal error — the source checks only that the per-share amount is
positive, so the call succeeds and mutates the closed position's
dividends-received. -/
theorem dividend_closed_position_counterexample :
    closed_three_share_position.is_closed = true ∧
    Position.adjust_for_dividend 5 closed_three_share_position =
      .ok (15, { closed_three_share_position with dividends_received := 15 }) ∧
    ¬ Position.adjust_for_dividend 5 closed_three_share_position =
      .error .assertionError := by
  with_unfolding_all decide

/-- C9 (amended): `adjust_for_dividend per_share` is a fatal error when
`per_share ≤ 0`; when `per_share > 0` it increments dividends-received by
`quantity * per_share` and returns that total — on any position, closed or
not: the open-position guard exists only at the broker's call sites (the
daily dividend pass filters on open positions), not in the method itself. -/
theorem adjust_for_dividend_spec (pos : Position) (per_share : ℚ)
    (hpos : 0 < per_share) :
    pos.adjust_for_dividend per_share =
      .ok ((pos.quantity : ℚ) * per_share,
        { pos with dividends_received :=
            pos.dividends_received + (pos.quantity : ℚ) * per_share }) ∧
    (∀ d : ℚ, d ≤ 0 → pos.adjust_for_dividend d = .error .assertionError) := by
  constructor
  · simp [Position.adjust_for_dividend, hpos]
  · intro d hd
    simp [Position.adjust_for_dividend, not_lt.mpr hd]

/-- Witness for C9 (amended): a positive dividend on the closed sample
position succeeds and returns `quantity * per_share`. -/
theorem adjust_for_dividend_spec_witness :
    Position.adjust_for_dividend 5 closed_three_share_position =
      .ok (15, { closed_three_share_position with dividends_received := 15 }) :=
  ((adjust_for_dividend_spec closed_three_share_position 5 (by norm_num)).1).trans
    (by norm_num [closed_three_share_position, three_share_position])

/-! ### The deposit / buy / dividend / close scenario (C3) -/

/-- The portfolio after depositing 100000 into a fresh portfolio. -/
def scenario_after_deposit : Portfolio :=
  { balance := 100000, contribution := 100000 }

/-- The lot bought in the scenario: 100 shares at 50. -/
def scenario_lot : Position :=
  { ticker := "ABC", quantity := 100, entry_price := 50, opened_timestamp := 0 }

/-- The portfolio after buying 100 shares at 50. -/
def scenario_after_buy : Portfolio :=
  { balance := 95000, contribution := 100000, tickers := ["ABC"],
    positions := [scenario_lot] }

/-- The lot after the 1-per-share dividend. -/
def scenario_lot_after_dividend : Position :=
  { scenario_lot with dividends_received := 100 }

/-- The portfolio after the 1-per-share dividend. -/
def scenario_after_dividend : Portfolio :=
  { scenario_after_buy with balance := 95100,
                            positions := [scenario_lot_after_dividend] }

/-- The lot after closing at 60. -/
def scenario_lot_closed : Position :=
  { scenario_lot_after_dividend with exit_price := 60, is_closed := true,
                                     closed_timestamp := some 1 }

/-- The portfolio after closing the lot at 60. -/
def scenario_after_close : Portfolio :=
  { scenario_after_dividend with balance := 101100,
                                 positions := [scenario_lot_closed] }

/-- C3 counterexample: in the deposit 100000 / buy 100 at 50 / dividend 1 per
share / close at 60 scenario, the closed position's `realised_pl` is 1000
(`(6000 - 5000) + cash_settlements_received`, with no cash settlements), not
1100: the 100 of dividends received is credited to the balance but is not part
of `realised_pl`. -/
theorem scenario_realised_pl_counterexample :
    Portfolio.deposit 100000 {} = .ok scenario_after_deposit ∧
    scenario_after_deposit.open_position "ABC" 50 100 0 = .ok scenario_after_buy ∧
    scenario_after_buy.pay_dividend 1 0 = .ok scenario_after_dividend ∧
    scenario_after_dividend.close_position 0 60 1 = .ok scenario_after_close ∧
    scenario_lot_closed.realised_pl = some 1000 ∧
    ¬ scenario_lot_closed.realised_pl = some 1100 := by
  refine ⟨?_, ?_, ?_, ?_, ?_, ?_⟩ <;>
    norm_num [Portfolio.deposit, Portfolio.pay, Portfolio.deduct,
      Portfolio.open_position, Portfolio.pay_dividend, Portfolio.close_position,
      Position.adjust_for_dividend, Position.close, Position.realised_pl,
      Position.exit_value, Position.entry_value, scenario_after_deposit,
      scenario_lot, scenario_after_buy, scenario_lot_after_dividend,
      scenario_after_dividend, scenario_lot_closed, scenario_after_close]

/-- C3 (amended): deposit 100000 gives balance 100000; buying 100 shares at 50
leaves balance 95000; a 1-per-share dividend leaves balance 95100 and
increments the position's dividends-received by 100; closing at 60 leaves
balance 101100; the closed position's `realised_pl` is 1000
(= (6000 - 5000) + 0 cash settlements — dividends received are excluded). -/
theorem scenario_dividend_close :
    Portfolio.deposit 100000 {} = .ok scenario_after_deposit ∧
    scenario_after_deposit.balance = 100000 ∧
    scenario_after_deposit.open_position "ABC" 50 100 0 = .ok scenario_after_buy ∧
    scenario_after_buy.balance = 95000 ∧
    scenario_after_buy.pay_dividend 1 0 = .ok scenario_after_dividend ∧
    scenario_after_dividend.balance = 95100 ∧
    scenario_lot_after_dividend.dividends_received = 100 ∧
    scenario_lot.dividends_received = 0 ∧
    scenario_after_dividend.close_position 0 60 1 = .ok scenario_after_close ∧
    scenario_after_close.balance = 101100 ∧
    scenario_lot_closed.realised_pl = some 1000 := by
  refine ⟨?_, ?_, ?_, ?_, ?_, ?_, ?_, ?_, ?_, ?_, ?_⟩ <;>
    norm_num [Portfolio.deposit, Portfolio.pay, Portfolio.deduct,
      Portfolio.open_position, Portfolio.pay_dividend, Portfolio.close_position,
      Position.adjust_for_dividend, Position.close, Position.realised_pl,
      Position.exit_value, Position.entry_value, scenario_after_deposit,
      scenario_lot, scenario_after_buy, scenario_lot_after_dividend,
      scenario_after_dividend, scenario_lot_closed, scenario_after_close]

/-! ### Tax properties (C7, C8) -/

lemma TaxReport.mem_insert_desc {x y : ℚ × ℚ} {L : List (ℚ × ℚ)} :
    y ∈ TaxReport.insert_desc x L ↔ y = x ∨ y ∈ L := by
  induction L with
  | nil => simp [TaxReport.insert_desc]
  | cons z zs ih =>
    simp only [TaxReport.insert_desc]
    split
    · simp [List.mem_cons]
    · simp only [List.mem_cons, ih]
      tauto

lemma TaxReport.mem_sort_desc {y : ℚ × ℚ} {L : List (ℚ × ℚ)} :
    y ∈ TaxReport.sort_desc L ↔ y ∈ L := by
  induction L with
  | nil => simp [TaxReport.sort_desc]
  | cons z zs ih => simp [TaxReport.sort_desc, TaxReport.mem_insert_desc, ih]

/-- The bracket walk is monotone in the residual amount whenever every rate is
non-negative, for any bracket order. -/
lemma TaxReport.bracket_walk_mono :
    ∀ L : List (ℚ × ℚ), (∀ b ∈ L, 0 ≤ b.2) →
      ∀ g1 g2 : ℚ, g1 ≤ g2 →
        TaxReport.bracket_walk L g1 ≤ TaxReport.bracket_walk L g2 := by
  intro L
  induction L with
  | nil => intro _ g1 g2 _; simp [TaxReport.bracket_walk]
  | cons b rest ih =>
    intro hr g1 g2 h
    obtain ⟨t, r⟩ := b
    have hr0 : 0 ≤ r := hr (t, r) (by simp)
    have hrest : ∀ b ∈ rest, 0 ≤ b.2 := fun b hb => hr b (List.mem_cons_of_mem _ hb)
    simp only [TaxReport.bracket_walk]
    by_cases h1 : t ≤ g1
    · have h2 : t ≤ g2 := le_trans h1 h
      rw [if_pos h1, if_pos h2]
      have hmul : r * (g1 - t) ≤ r * (g2 - t) :=
        mul_le_mul_of_nonneg_left (sub_le_sub_right h t) hr0
      linarith
    · rw [if_neg h1]
      by_cases h2 : t ≤ g2
      · rw [if_pos h2]
        have ha : TaxReport.bracket_walk rest g1 ≤ TaxReport.bracket_walk rest t :=
          ih hrest g1 t (le_of_not_le h1)
        have hb : 0 ≤ r * (g2 - t) := mul_nonneg hr0 (by linarith)
        linarith
      · rw [if_neg h2]
        exact ih hrest g1 g2 h

/-- C7 counterexample: the monotonicity claim quantifies over every bracket
table; for the table mapping threshold 0 to the (nonsensical but
unconstrained) rate -1, net gains 1 < 2 give tax -1 > -2, so
`tax(g1) ≤ tax(g2)` fails.  (The source reads its rates from a database and
never constrains their sign.) -/
theorem tax_monotonicity_counterexample :
    (1 : ℚ) < 2 ∧
    ¬ TaxReport.calculate_tax 1 [(0, -1)] ≤ TaxReport.calculate_tax 2 [(0, -1)] := by
  norm_num [TaxReport.calculate_tax, TaxReport.sort_desc, TaxReport.insert_desc,
    TaxReport.bracket_walk]

/-- C7 (amended): for every bracket table all of whose rates are non-negative
(as actual marginal tax rates are) and any two net-gain values `g1 < g2`, the
bracket-walk algorithm gives `tax(g1) ≤ tax(g2)`. -/
theorem tax_bracket_monotonic (table : List (ℚ × ℚ)) (g1 g2 : ℚ)
    (hr : ∀ b ∈ table, 0 ≤ b.2) (h : g1 < g2) :
    TaxReport.calculate_tax g1 table ≤ TaxReport.calculate_tax g2 table :=
  TaxReport.bracket_walk_mono (TaxReport.sort_desc table)
    (fun b hb => hr b (TaxReport.mem_sort_desc.mp hb)) g1 g2 h.le

/-- Witness for C7 (amended): a two-bracket table (10% above 0, 20% above 10)
at gains 5 < 15. -/
theorem tax_bracket_monotonic_witness :
    TaxReport.calculate_tax 5 [(0, 1/10), (10, 1/5)] ≤
      TaxReport.calculate_tax 15 [(0, 1/10), (10, 1/5)] :=
  tax_bracket_monotonic [(0, 1/10), (10, 1/5)] 5 15
    (by intro b hb
        simp only [List.mem_cons, List.not_mem_nil, or_false] at hb
        rcases hb with rfl | rfl <;> norm_num)
    (by norm_num)

/-- C8: `deductible_losses = min(3000, abs(min(0, net_gains)))` with
`net_gains` the sum of short- and long-term gains, and
`total_tax = short_term_tax + long_term_tax - deductible_losses`, not floored
at zero: with a 100 net loss and empty bracket tables the total tax is -100,
a negative amount. -/
theorem tax_deductible_losses_total (s l : ℚ) (ord cap : List (ℚ × ℚ)) :
    TaxReport.deductible_losses s l = min 3000 |min 0 (s + l)| ∧
    TaxReport.total_tax s l ord cap =
      TaxReport.calculate_tax s ord + TaxReport.calculate_tax l cap -
        TaxReport.deductible_losses s l ∧
    TaxReport.total_tax (-100) 0 [] [] = -100 ∧
    TaxReport.total_tax (-100) 0 [] [] < 0 := by
  refine ⟨rfl, rfl, ?_, ?_⟩ <;>
    norm_num [TaxReport.total_tax, TaxReport.calculate_tax, TaxReport.sort_desc,
      TaxReport.bracket_walk, TaxReport.deductible_losses, TaxReport.net_gains]

/-! ### Solvency (C1) -/

lemma mem_of_getElem? {α : Type} {l : List α} {i : ℕ} {a : α}
    (h : l[i]? = some a) : a ∈ l := by
  obtain ⟨hlen, rfl⟩ := List.getElem?_eq_some.mp h
  exact List.getElem_mem hlen

lemma quantity_bound_set {l : List Position} (h : ∀ x ∈ l, 1 ≤ x.quantity)
    {i : ℕ} {pos' : Position} (h' : 1 ≤ pos'.quantity) :
    ∀ x ∈ l.set i pos', 1 ≤ x.quantity :=
  fun x hx => (List.mem_or_eq_of_mem_set hx).elim (h x) (fun e => e ▸ h')

lemma Portfolio.pay_ok_of_nonneg (amount : ℚ) (p : Portfolio) (h : 0 ≤ amount) :
    p.pay amount = .ok { p with balance := p.balance + amount } := by
  unfold Portfolio.pay
  rw [if_neg (not_lt.mpr h)]
  by_cases h0 : amount > 0
  · rw [if_pos h0]
  · rw [if_neg h0]
    have hz : amount = 0 := le_antisymm (not_lt.mp h0) h
    subst hz
    simp

lemma Portfolio.pay_error {amount : ℚ} {p q : Portfolio} {e : PortfolioError}
    (h : p.pay amount = .error (e, q)) : e = .valueError ∧ q = p := by
  unfold Portfolio.pay at h
  split_ifs at h
  · simp only [Except.error.injEq, Prod.mk.injEq] at h
    exact ⟨h.1.symm, h.2.symm⟩

lemma Portfolio.deduct_ok_of_le (amount : ℚ) (p : Portfolio)
    (h : amount ≤ p.balance) :
    p.deduct amount = .ok { p with balance := p.balance - amount } := by
  unfold Portfolio.deduct
  rw [if_neg (not_lt.mpr h)]

lemma Portfolio.deduct_error {amount : ℚ} {p q : Portfolio} {e : PortfolioError}
    (h : p.deduct amount = .error (e, q)) :
    e = .insufficientFunds ∧ q = p ∧ p.balance < amount := by
  unfold Portfolio.deduct at h
  split_ifs at h with hgt
  · simp only [Except.error.injEq, Prod.mk.injEq] at h
    exact ⟨h.1.symm, h.2.symm, hgt⟩

lemma Portfolio.deduct_error_of_gt (amount : ℚ) (p : Portfolio)
    (h : p.balance < amount) :
    p.deduct amount = .error (.insufficientFunds, p) := by
  unfold Portfolio.deduct
  rw [if_pos h]

lemma Position.close_of_open (price : ℚ) (timestamp : ℤ) (pos : Position)
    (h : pos.is_closed = false) :
    pos.close price timestamp =
      .ok ((pos.quantity : ℚ) * price,
        { pos with exit_price := price, is_closed := true,
                   closed_timestamp := some timestamp }) := by
  unfold Position.close
  rw [if_neg (by simp [h])]

lemma Position.close_of_closed (price : ℚ) (timestamp : ℤ) (pos : Position)
    (h : pos.is_closed = true) :
    pos.close price timestamp = .error .assertionError := by
  unfold Position.close
  rw [if_pos (by simp [h])]

lemma Position.adjust_for_dividend_of_pos (d : ℚ) (pos : Position)
    (h : 0 < d) :
    pos.adjust_for_dividend d =
      .ok ((pos.quantity : ℚ) * d,
        { pos with dividends_received :=
            pos.dividends_received + (pos.quantity : ℚ) * d }) := by
  unfold Position.adjust_for_dividend
  rw [if_pos h]

lemma Position.adjust_for_dividend_of_nonpos (d : ℚ) (pos : Position)
    (h : ¬ 0 < d) :
    pos.adjust_for_dividend d = .error .assertionError := by
  unfold Position.adjust_for_dividend
  rw [if_neg h]

/-- Every operation of the `Portfolio` interface preserves the solvency
invariant, whether it completes normally or raises, provided its monetary
arguments are non-negative. -/
lemma step_preserves_solvent (op : Op) (p : Portfolio) (hop : op.nonneg)
    (hp : Solvent p) : Solvent (state_of (op.step p)) := by
  obtain ⟨hbal, hq⟩ := hp
  cases op with
  | deposit amount =>
    simp only [Op.step, Portfolio.deposit,
      Portfolio.pay_ok_of_nonneg amount p hop, state_of]
    exact ⟨add_nonneg hbal hop, hq⟩
  | withdraw amount =>
    by_cases hgt : p.balance < amount
    · simp only [Op.step, Portfolio.withdraw,
        Portfolio.deduct_error_of_gt amount p hgt, state_of]
      exact ⟨hbal, hq⟩
    · simp only [Op.step, Portfolio.withdraw,
        Portfolio.deduct_ok_of_le amount p (not_lt.mp hgt), state_of]
      exact ⟨sub_nonneg.mpr (not_lt.mp hgt), hq⟩
  | open_position ticker price quantity timestamp =>
    obtain ⟨hprice, hquant⟩ := hop
    by_cases hgt : p.balance < price * (quantity : ℚ)
    · simp only [Op.step, Portfolio.open_position,
        Portfolio.deduct_error_of_gt _ p hgt, state_of]
      exact ⟨hbal, hq⟩
    · by_cases hlt : quantity < 1
      · simp only [Op.step, Portfolio.open_position,
          Portfolio.deduct_ok_of_le _ p (not_lt.mp hgt), if_pos hlt, state_of]
        exact ⟨sub_nonneg.mpr (not_lt.mp hgt), hq⟩
      · simp only [Op.step, Portfolio.open_position,
          Portfolio.deduct_ok_of_le _ p (not_lt.mp hgt), if_neg hlt, state_of]
        refine ⟨sub_nonneg.mpr (not_lt.mp hgt), ?_⟩
        intro x hx
        rcases List.mem_append.mp hx with hx | hx
        · exact hq x hx
        · rcases List.mem_singleton.mp hx with rfl
          exact not_lt.mp hlt
  | close_position i price timestamp =>
    cases hi : p.positions[i]? with
    | none =>
      simp only [Op.step, Portfolio.close_position, hi, state_of]
      exact ⟨hbal, hq⟩
    | some pos =>
      cases hc : pos.is_closed with
      | true =>
        simp only [Op.step, Portfolio.close_position, hi,
          Position.close_of_closed price timestamp pos hc, state_of]
        exact ⟨hbal, hq⟩
      | false =>
        have h1 : 1 ≤ pos.quantity := hq pos (mem_of_getElem? hi)
        have h1q : (1 : ℚ) ≤ (pos.quantity : ℚ) := by exact_mod_cast h1
        simp only [Op.step, Portfolio.close_position, hi,
          Position.close_of_open price timestamp pos hc, state_of]
        exact ⟨add_nonneg hbal (mul_nonneg (le_trans zero_le_one h1q) hop),
          quantity_bound_set hq h1⟩
  | pay_dividend amount i =>
    cases hi : p.positions[i]? with
    | none =>
      simp only [Op.step, Portfolio.pay_dividend, hi, state_of]
      exact ⟨hbal, hq⟩
    | some pos =>
      by_cases hpos : 0 < amount
      · have h1 : 1 ≤ pos.quantity := hq pos (mem_of_getElem? hi)
        have h1q : (1 : ℚ) ≤ (pos.quantity : ℚ) := by exact_mod_cast h1
        have htot : 0 ≤ (pos.quantity : ℚ) * amount :=
          mul_nonneg (le_trans zero_le_one h1q) hop
        simp only [Op.step, Portfolio.pay_dividend, hi,
          Position.adjust_for_dividend_of_pos amount pos hpos,
          Portfolio.pay_ok_of_nonneg _ _ htot, state_of]
        exact ⟨add_nonneg hbal htot, quantity_bound_set hq h1⟩
      · simp only [Op.step, Portfolio.pay_dividend, hi,
          Position.adjust_for_dividend_of_nonpos amount pos hpos, state_of]
        exact ⟨hbal, hq⟩
  | pay_cash_settlement amount i =>
    cases hi : p.positions[i]? with
    | none =>
      simp only [Op.step, Portfolio.pay_cash_settlement, hi, state_of]
      exact ⟨hbal, hq⟩
    | some pos =>
      have h1 : 1 ≤ pos.quantity := hq pos (mem_of_getElem? hi)
      simp only [Op.step, Portfolio.pay_cash_settlement, hi,
        Portfolio.pay_ok_of_nonneg amount p hop, state_of]
      exact ⟨add_nonneg hbal hop, quantity_bound_set hq h1⟩
  | pay_for_buy_order amount =>
    by_cases hgt : p.balance < amount
    · simp only [Op.step, Portfolio.pay_for_buy_order,
        Portfolio.deduct_error_of_gt amount p hgt, state_of]
      exact ⟨hbal, hq⟩
    · simp only [Op.step, Portfolio.pay_for_buy_order,
        Portfolio.deduct_ok_of_le amount p (not_lt.mp hgt), state_of]
      exact ⟨sub_nonneg.mpr (not_lt.mp hgt), hq⟩
  | refund_unfilled_buy_order amount =>
    simp only [Op.step, Portfolio.refund_unfilled_buy_order,
      Portfolio.pay_ok_of_nonneg amount p hop, state_of]
    exact ⟨add_nonneg hbal hop, hq⟩
  | deduct_taxes amount =>
    simp only [Op.step, Portfolio.deduct_taxes,
      Portfolio.deduct_ok_of_le _ _ (min_le_left p.balance amount), state_of]
    exact ⟨sub_nonneg.mpr (min_le_left p.balance amount), hq⟩

/-- A run that catches exceptions and continues preserves the solvency
invariant. -/
lemma run_catch_solvent (ops : List Op) (p : Portfolio) (hp : Solvent p)
    (hops : ∀ op ∈ ops, op.nonneg) : Solvent (run_catch ops p) := by
  induction ops generalizing p with
  | nil => exact hp
  | cons op rest ih =>
    exact ih (state_of (op.step p))
      (step_preserves_solvent op p (hops op (List.mem_cons_self op rest)) hp)
      (fun o ho => hops o (List.mem_cons_of_mem op ho))

/-- An operation that raises `InsufficientFundsError` raises it before any
mutation: the carried state equals the starting state. -/
lemma insufficient_funds_no_mutation (op : Op) (q q' : Portfolio)
    (h : op.step q = .error (.insufficientFunds, q')) : q' = q := by
  cases op with
  | deposit amount =>
    simp only [Op.step, Portfolio.deposit] at h
    cases hpay : q.pay amount with
    | ok r => simp [hpay] at h
    | error er =>
      obtain ⟨e, r⟩ := er
      simp only [hpay, Except.error.injEq, Prod.mk.injEq] at h
      cases (Portfolio.pay_error hpay).1.symm.trans h.1
  | withdraw amount => exact (Portfolio.deduct_error h).2.1
  | open_position ticker price quantity timestamp =>
    simp only [Op.step, Portfolio.open_position] at h
    cases hd : q.deduct (price * (quantity : ℚ)) with
    | ok r =>
      by_cases hlt : quantity < 1
      · simp [hd, hlt] at h
      · simp [hd, hlt] at h
    | error er =>
      obtain ⟨e, r⟩ := er
      simp only [hd, Except.error.injEq, Prod.mk.injEq] at h
      rw [← h.2]
      exact (Portfolio.deduct_error hd).2.1
  | close_position i price timestamp =>
    simp only [Op.step, Portfolio.close_position] at h
    cases hi : q.positions[i]? with
    | none => simp only [hi, Except.error.injEq, Prod.mk.injEq] at h; cases h.1
    | some pos =>
      cases hc : pos.is_closed with
      | true =>
        simp only [hi, Position.close_of_closed price timestamp pos hc,
          Except.error.injEq, Prod.mk.injEq] at h
        cases h.1
      | false =>
        simp [hi, Position.close_of_open price timestamp pos hc] at h
  | pay_dividend amount i =>
    simp only [Op.step, Portfolio.pay_dividend] at h
    cases hi : q.positions[i]? with
    | none => simp only [hi, Except.error.injEq, Prod.mk.injEq] at h; cases h.1
    | some pos =>
      by_cases hpos : 0 < amount
      · simp only [hi, Position.adjust_for_dividend_of_pos amount pos hpos] at h
        cases (Portfolio.pay_error h).1
      · simp only [hi, Position.adjust_for_dividend_of_nonpos amount pos hpos,
          Except.error.injEq, Prod.mk.injEq] at h
        cases h.1
  | pay_cash_settlement amount i =>
    simp only [Op.step, Portfolio.pay_cash_settlement] at h
    cases hi : q.positions[i]? with
    | none => simp only [hi, Except.error.injEq, Prod.mk.injEq] at h; cases h.1
    | some pos =>
      cases hpay : q.pay amount with
      | ok r => simp [hi, hpay] at h
      | error er =>
        obtain ⟨e, r⟩ := er
        simp only [hi, hpay, Except.error.injEq, Prod.mk.injEq] at h
        cases (Portfolio.pay_error hpay).1.symm.trans h.1
  | pay_for_buy_order amount => exact (Portfolio.deduct_error h).2.1
  | refund_unfilled_buy_order amount =>
    cases ((Portfolio.pay_error h).1 : PortfolioError.insufficientFunds = _)
  | deduct_taxes amount =>
    simp only [Op.step, Portfolio.deduct_taxes] at h
    cases hd : q.deduct (min q.balance amount) with
    | ok r => simp [hd] at h
    | error er =>
      exact absurd (Portfolio.deduct_error hd).2.2
        (not_lt.mpr (min_le_left q.balance amount))

/-- C1: starting from a portfolio with a non-negative balance (whose recorded
positions, if any, hold at least one share, as the `Position` constructor
asserts), every sequence of deposit / withdraw / open_position /
close_position / pay_dividend / pay_cash_settlement / pay_for_buy_order /
refund_unfilled_buy_order / deduct_taxes calls with non-negative amounts
keeps the balance non-negative after every call — including runs in which a
driver catches exceptions and continues — and any call that raises
`InsufficientFundsError` raises it with the portfolio state (balance,
positions, everything) unchanged. -/
theorem solvency_invariant (ops : List Op) (p : Portfolio) (op : Op)
    (q q' : Portfolio) (hbal : 0 ≤ p.balance)
    (hquant : ∀ pos ∈ p.positions, 1 ≤ pos.quantity)
    (hops : ∀ o ∈ ops, o.nonneg)
    (hraise : op.step q = .error (.insufficientFunds, q')) :
    0 ≤ (run_catch ops p).balance ∧ q' = q :=
  ⟨(run_catch_solvent ops p ⟨hbal, hquant⟩ hops).1,
    insufficient_funds_no_mutation op q q' hraise⟩

/-- Witness for C1: a deposit of 5, a buy of 2 shares at 1 and a withdrawal
of 2 starting from a fresh portfolio, with a failing over-withdrawal of 7 as
the raising call. -/
theorem solvency_invariant_witness :
    0 ≤ (run_catch [Op.deposit 5, Op.open_position "A" 1 2 0, Op.withdraw 2]
      {}).balance ∧ ({} : Portfolio) = {} :=
  solvency_invariant [Op.deposit 5, Op.open_position "A" 1 2 0, Op.withdraw 2]
    {} (Op.withdraw 7) {} {}
    (by norm_num)
    (by simp)
    (by intro o ho
        simp only [List.mem_cons, List.not_mem_nil, or_false] at ho
        rcases ho with rfl | rfl | rfl <;> norm_num [Op.nonneg])
    (by with_unfolding_all decide)

/-! ### Batched buy orders (C6) -/

lemma Portfolio.pay_ok_inv {amount : ℚ} {p r : Portfolio}
    (h : p.pay amount = .ok r) :
    0 ≤ amount ∧ r = { p with balance := p.balance + amount } := by
  unfold Portfolio.pay at h
  split_ifs at h with h1 h2
  · refine ⟨le_of_lt h2, ?_⟩
    injection h with h
    exact h.symm
  · have hz : amount = 0 := le_antisymm (not_lt.mp h2) (not_lt.mp h1)
    subst hz
    injection h with h
    rw [← h]
    simp
  -- the negative-amount branch raises, contradicting `h`

lemma Portfolio.deduct_ok_inv {amount : ℚ} {p r : Portfolio}
    (h : p.deduct amount = .ok r) :
    amount ≤ p.balance ∧ r = { p with balance := p.balance - amount } := by
  unfold Portfolio.deduct at h
  split_ifs at h with h1
  · injection h with h
    exact ⟨not_lt.mp h1, h.symm⟩

/-- C6: a buy order queued in batch mode (charged upfront with
`pay_for_buy_order(quantity * price)`) and materialised at scope exit
(`refund_unfilled_buy_order(quantity * price)` followed by `open_position`,
which deducts the realised cost `price * quantity`) leaves the balance equal
to the balance before queuing minus exactly one deduction of the realised
cost, i.e. exactly what a single `_deduct(quantity * price)` would leave. -/
theorem batch_buy_order_nets_single_deduction (ticker : String) (quantity : ℤ)
    (price : ℚ) (order_date : ℤ) (p p1 p2 p3 : Portfolio)
    (hpay : p.pay_for_buy_order ((quantity : ℚ) * price) = .ok p1)
    (hrefund : p1.refund_unfilled_buy_order ((quantity : ℚ) * price) = .ok p2)
    (hopen : p2.open_position ticker price quantity order_date = .ok p3) :
    p3.balance = p.balance - (quantity : ℚ) * price ∧
    p.deduct ((quantity : ℚ) * price) =
      .ok { p with balance := p.balance - (quantity : ℚ) * price } := by
  unfold Portfolio.pay_for_buy_order at hpay
  unfold Portfolio.refund_unfilled_buy_order at hrefund
  obtain ⟨hle, rfl⟩ := Portfolio.deduct_ok_inv hpay
  obtain ⟨-, rfl⟩ := Portfolio.pay_ok_inv hrefund
  have hbal2 : p.balance - (quantity : ℚ) * price + (quantity : ℚ) * price
      = p.balance := by ring
  have hle2 : price * (quantity : ℚ) ≤
      ({ { p with balance := p.balance - (quantity : ℚ) * price } with
         balance := ({ p with balance := p.balance - (quantity : ℚ) * price
           } : Portfolio).balance + (quantity : ℚ) * price } : Portfolio).balance := by
    show price * (quantity : ℚ) ≤
      p.balance - (quantity : ℚ) * price + (quantity : ℚ) * price
    rw [hbal2, mul_comm]
    exact hle
  by_cases hq1 : quantity < 1
  · simp only [Portfolio.open_position,
      Portfolio.deduct_ok_of_le _ _ hle2, if_pos hq1] at hopen
    exact absurd hopen (by simp)
  · simp only [Portfolio.open_position,
      Portfolio.deduct_ok_of_le _ _ hle2, if_neg hq1, Except.ok.injEq] at hopen
    constructor
    · rw [← hopen]
      show p.balance - (quantity : ℚ) * price + (quantity : ℚ) * price -
        price * (quantity : ℚ) = p.balance - (quantity : ℚ) * price
      ring
    · exact Portfolio.deduct_ok_of_le _ _ hle

/-- The concrete portfolios of the C6 witness: balance 100, a buy order of 2
shares at 5. -/
def before_queue : Portfolio := { balance := 100 }

/-- After the upfront charge of 10. -/
def after_upfront_charge : Portfolio := { balance := 90 }

/-- After the refund of 10 at materialisation. -/
def after_refund : Portfolio := { balance := 100 }

/-- After the position is opened at the realised cost 10. -/
def after_materialise : Portfolio :=
  { balance := 90, tickers := ["A"],
    positions := [{ ticker := "A", quantity := 2, entry_price := 5,
                    opened_timestamp := 3 }] }

/-- Witness for C6 at the concrete order of 2 shares at 5 against balance
100. -/
theorem batch_buy_order_nets_single_deduction_witness :
    after_materialise.balance = before_queue.balance - ((2 : ℤ) : ℚ) * 5 ∧
    before_queue.deduct (((2 : ℤ) : ℚ) * 5) =
      .ok { before_queue with
            balance := before_queue.balance - ((2 : ℤ) : ℚ) * 5 } :=
  batch_buy_order_nets_single_deduction "A" 2 5 3 before_queue
    after_upfront_charge after_refund after_materialise
    (by with_unfolding_all decide)
    (by with_unfolding_all decide)
    (by with_unfolding_all decide)

/-! ### Batch scope atomicity (C5) -/

lemma Portfolio.deposit_error {amount : ℚ} {p q : Portfolio} {e : PortfolioError}
    (h : p.deposit amount = .error (e, q)) : q = p := by
  unfold Portfolio.deposit at h
  cases hpay : p.pay amount with
  | ok r => rw [hpay] at h; simp at h
  | error er =>
    obtain ⟨e2, r⟩ := er
    rw [hpay] at h
    simp only [Except.error.injEq, Prod.mk.injEq] at h
    rw [← h.2]
    exact (Portfolio.pay_error hpay).2

lemma Portfolio.close_position_error {i : ℕ} {price : ℚ} {timestamp : ℤ}
    {p q : Portfolio} {e : PortfolioError}
    (h : p.close_position i price timestamp = .error (e, q)) : q = p := by
  unfold Portfolio.close_position at h
  cases hi : p.positions[i]? with
  | none =>
    simp only [hi, Except.error.injEq, Prod.mk.injEq] at h
    exact h.2.symm
  | some pos =>
    cases hc : pos.is_closed with
    | true =>
      simp only [hi, Position.close_of_closed price timestamp pos hc,
        Except.error.injEq, Prod.mk.injEq] at h
      exact h.2.symm
    | false =>
      simp [hi, Position.close_of_open price timestamp pos hc] at h

lemma Portfolio.pay_dividend_error {amount : ℚ} {i : ℕ} {p q : Portfolio}
    {e : PortfolioError}
    (hquant : ∀ pos ∈ p.positions, 0 ≤ pos.quantity)
    (h : p.pay_dividend amount i = .error (e, q)) : q = p := by
  unfold Portfolio.pay_dividend at h
  cases hi : p.positions[i]? with
  | none =>
    simp only [hi, Except.error.injEq, Prod.mk.injEq] at h
    exact h.2.symm
  | some pos =>
    by_cases hpos : 0 < amount
    · have h0 : 0 ≤ pos.quantity := hquant pos (mem_of_getElem? hi)
      have h0q : (0 : ℚ) ≤ (pos.quantity : ℚ) := by exact_mod_cast h0
      have htot : 0 ≤ (pos.quantity : ℚ) * amount :=
        mul_nonneg h0q (le_of_lt hpos)
      simp [hi, Position.adjust_for_dividend_of_pos amount pos hpos,
        Portfolio.pay_ok_of_nonneg _ _ htot] at h
    · simp only [hi, Position.adjust_for_dividend_of_nonpos amount pos hpos,
        Except.error.injEq, Prod.mk.injEq] at h
      exact h.2.symm

lemma Portfolio.pay_cash_settlement_error {amount : ℚ} {i : ℕ}
    {p q : Portfolio} {e : PortfolioError}
    (h : p.pay_cash_settlement amount i = .error (e, q)) : q = p := by
  unfold Portfolio.pay_cash_settlement at h
  cases hi : p.positions[i]? with
  | none =>
    simp only [hi, Except.error.injEq, Prod.mk.injEq] at h
    exact h.2.symm
  | some pos =>
    cases hpay : p.pay amount with
    | ok r => simp [hi, hpay] at h
    | error er =>
      obtain ⟨e2, r⟩ := er
      simp only [hi, hpay, Except.error.injEq, Prod.mk.injEq] at h
      rw [← h.2]
      exact (Portfolio.pay_error hpay).2

lemma Broker.lift_error {b b' : Broker} {r : PResult} {e : PortfolioError}
    (h : b.lift r = .error (e, b')) :
    ∃ q, r = .error (e, q) ∧ b' = { b with portfolio := q } := by
  cases r with
  | ok p => simp [Broker.lift] at h
  | error er =>
    obtain ⟨e2, q⟩ := er
    simp only [Broker.lift, Except.error.injEq, Prod.mk.injEq] at h
    exact ⟨q, by rw [h.1], h.2.symm⟩

/-- C5 counterexample: in a batch scope over a fresh portfolio, a deposit of
100 followed by a sell with an unregistered position id (which fails the
fatal SELL precondition) leaves the deposit fully reflected in the
portfolio's balance after the scope exits: non-BUY transactions execute
against the portfolio immediately inside the scope and are never rolled
back. -/
theorem batch_scope_partial_commit_counterexample :
    Broker.execute_transaction_batch (.sell 0 10)
      ({ portfolio := { balance := 100, contribution := 100 } } : Broker) =
      .error (.assertionError,
        { portfolio := { balance := 100, contribution := 100 } }) ∧
    Broker.run_scope [.deposit 100, .sell 0 10] ({ portfolio := {} } : Broker) =
      { portfolio := { balance := 100, contribution := 100 } } ∧
    ¬ (Broker.run_scope [.deposit 100, .sell 0 10]
        ({ portfolio := {} } : Broker)).portfolio.balance =
      ({ portfolio := {} } : Broker).portfolio.balance := by
  with_unfolding_all decide

/-- C5 (amended): scope-level atomicity does not hold — transactions executed
earlier in a batch scope stay committed when a later one fails (see the
counterexample) — but each single transaction is atomic: a batch-mode
transaction that raises (a failed fatal precondition, or any portfolio
error) leaves the broker state exactly as it was, provided no recorded
position has negative quantity. -/
theorem batch_transaction_no_mutation_on_failure (tx : BrokerTx) (b b' : Broker)
    (e : PortfolioError)
    (hquant : ∀ pos ∈ b.portfolio.positions, 0 ≤ pos.quantity)
    (herr : b.execute_transaction_batch tx = .error (e, b')) : b' = b := by
  cases tx with
  | deposit amount =>
    simp only [Broker.execute_transaction_batch,
      Broker.check_transaction_preconditions, if_true] at herr
    obtain ⟨q, hr, rfl⟩ := Broker.lift_error herr
    rw [Portfolio.deposit_error hr]
  | withdrawal amount =>
    simp only [Broker.execute_transaction_batch,
      Broker.check_transaction_preconditions, if_true] at herr
    obtain ⟨q, hr, rfl⟩ := Broker.lift_error herr
    rw [(Portfolio.deduct_error hr).2.1]
  | buy ticker quantity price =>
    simp only [Broker.execute_transaction_batch,
      Broker.check_transaction_preconditions, if_true] at herr
    cases hd : b.portfolio.pay_for_buy_order ((quantity : ℚ) * price) with
    | ok r => simp [hd] at herr
    | error er =>
      obtain ⟨e2, q⟩ := er
      simp only [hd, Except.error.injEq, Prod.mk.injEq] at herr
      rw [← herr.2]
      unfold Portfolio.pay_for_buy_order at hd
      rw [(Portfolio.deduct_error hd).2.1]
  | sell i price =>
    by_cases hchk : i < b.portfolio.positions.length
    · simp only [Broker.execute_transaction_batch,
        Broker.check_transaction_preconditions, hchk, decide_eq_true_eq,
        if_true] at herr
      obtain ⟨q, hr, rfl⟩ := Broker.lift_error herr
      rw [Portfolio.close_position_error hr]
    · rw [Broker.execute_transaction_batch,
        if_neg (by simpa [Broker.check_transaction_preconditions] using hchk)]
        at herr
      simp only [Except.error.injEq, Prod.mk.injEq] at herr
      exact herr.2.symm
  | dividend amount i =>
    by_cases hchk : i < b.portfolio.positions.length
    · simp only [Broker.execute_transaction_batch,
        Broker.check_transaction_preconditions, hchk, decide_eq_true_eq,
        if_true] at herr
      obtain ⟨q, hr, rfl⟩ := Broker.lift_error herr
      rw [Portfolio.pay_dividend_error hquant hr]
    · rw [Broker.execute_transaction_batch,
        if_neg (by simpa [Broker.check_transaction_preconditions] using hchk)]
        at herr
      simp only [Except.error.injEq, Prod.mk.injEq] at herr
      exact herr.2.symm
  | cash_settlement amount i =>
    by_cases hchk : i < b.portfolio.positions.length
    · simp only [Broker.execute_transaction_batch,
        Broker.check_transaction_preconditions, hchk, decide_eq_true_eq,
        if_true] at herr
      obtain ⟨q, hr, rfl⟩ := Broker.lift_error herr
      rw [Portfolio.pay_cash_settlement_error hr]
    · rw [Broker.execute_transaction_batch,
        if_neg (by simpa [Broker.check_transaction_preconditions] using hchk)]
        at herr
      simp only [Except.error.injEq, Prod.mk.injEq] at herr
      exact herr.2.symm
  | tax amount =>
    simp only [Broker.execute_transaction_batch,
      Broker.check_transaction_preconditions, if_true] at herr
    obtain ⟨q, hr, rfl⟩ := Broker.lift_error herr
    rw [Portfolio.deduct_taxes,
      Portfolio.deduct_ok_of_le _ _ (min_le_left b.portfolio.balance amount)]
      at hr
    simp at hr

/-- Witness for C5 (amended): a sell against an unregistered position id on a
fresh broker fails its fatal precondition and leaves the broker unchanged. -/
theorem batch_transaction_no_mutation_on_failure_witness :
    ({ portfolio := {} } : Broker) = ({ portfolio := {} } : Broker) :=
  batch_transaction_no_mutation_on_failure (.sell 0 5)
    ({ portfolio := {} } : Broker) ({ portfolio := {} } : Broker)
    .assertionError
    (by simp)
    (by with_unfolding_all decide)

/-! ### Stock-split cash settlement double count (C10) -/

/-- C10: when the broker's daily corporate-action pass applies a stock split
with a positive cash settlement to the open position at index `i`, the
settlement `s` is added to the position's cash-settlements-received twice —
once inside `Position.adjust_for_stock_split` (which yields `pos1`) and a
second time via `Portfolio.pay_cash_settlement` — while the portfolio's cash
balance is credited `s` only once by that payment; the split pass then closes
the lot at its entry price, so the closed lot's `realised_pl` is its prior
cash settlements plus `2 * s`. -/
theorem split_cash_settlement_double_count (b : Broker) (i : ℕ)
    (pos pos1 : Position) (c w f adj s : ℚ)
    (hi : b.portfolio.positions[i]? = some pos)
    (hadj : pos.adjust_for_stock_split c = .ok ((w, f, adj, s), pos1))
    (hs : 0 < s) (hw : 1 ≤ w) (hc : 0 < c) (hbal : 0 ≤ b.portfolio.balance) :
    pos1.cash_settlements_received = pos.cash_settlements_received + s ∧
    Portfolio.pay_cash_settlement s i
        { b.portfolio with positions := b.portfolio.positions.set i pos1 } =
      .ok { b.portfolio with
            balance := b.portfolio.balance + s,
            positions := b.portfolio.positions.set i
              { pos with cash_settlements_received :=
                  pos.cash_settlements_received + 2 * s } } ∧
    b.process_split_for_position c i =
      .ok (Broker.broker_state_of (b.process_split_for_position c i)) ∧
    (Broker.broker_state_of
        (b.process_split_for_position c i)).portfolio.positions[i]? =
      some { pos with
             cash_settlements_received := pos.cash_settlements_received + 2 * s,
             exit_price := pos.entry_price, is_closed := true,
             closed_timestamp := some b.today } ∧
    Position.realised_pl
        { pos with
          cash_settlements_received := pos.cash_settlements_received + 2 * s,
          exit_price := pos.entry_price, is_closed := true,
          closed_timestamp := some b.today } =
      some (pos.cash_settlements_received + 2 * s) := by
  obtain ⟨hlen, -⟩ := List.getElem?_eq_some.mp hi
  rcases Bool.eq_false_or_eq_true pos.is_closed with hopen | hopen
  · rw [Position.adjust_for_stock_split, if_pos (by simp [hopen])] at hadj
    simp at hadj
  · rw [Position.adjust_for_stock_split, if_neg (by simp [hopen])] at hadj
    simp only [Except.ok.injEq, Prod.mk.injEq] at hadj
    obtain ⟨⟨hw1, hf1, hadj1, hs1⟩, hpos1⟩ := hadj
    subst hw1 hf1 hadj1 hs1 hpos1
    have hlen1 :
        i <
          (b.portfolio.positions.set i
            { pos with
              cash_settlements_received :=
                pos.cash_settlements_received +
                  ((pos.quantity : ℚ) * c - (⌊(pos.quantity : ℚ) * c⌋ : ℚ)) *
                    (pos.entry_price / c) }).length := by
      rw [List.length_set]; exact hlen
    have harith : pos.cash_settlements_received +
        ((pos.quantity : ℚ) * c - (⌊(pos.quantity : ℚ) * c⌋ : ℚ)) *
          (pos.entry_price / c) +
        ((pos.quantity : ℚ) * c - (⌊(pos.quantity : ℚ) * c⌋ : ℚ)) *
          (pos.entry_price / c) =
        pos.cash_settlements_received +
          2 * (((pos.quantity : ℚ) * c - (⌊(pos.quantity : ℚ) * c⌋ : ℚ)) *
            (pos.entry_price / c)) := by ring
    have h2 : Portfolio.pay_cash_settlement
        (((pos.quantity : ℚ) * c - (⌊(pos.quantity : ℚ) * c⌋ : ℚ)) *
          (pos.entry_price / c)) i
        { b.portfolio with
          positions :=
            b.portfolio.positions.set i
              { pos with
                cash_settlements_received :=
                  pos.cash_settlements_received +
                    ((pos.quantity : ℚ) * c - (⌊(pos.quantity : ℚ) * c⌋ : ℚ)) *
                      (pos.entry_price / c) } } =
      .ok { b.portfolio with
            balance :=
              b.portfolio.balance +
                ((pos.quantity : ℚ) * c - (⌊(pos.quantity : ℚ) * c⌋ : ℚ)) *
                  (pos.entry_price / c),
            positions :=
              b.portfolio.positions.set i
                { pos with
                  cash_settlements_received :=
                    pos.cash_settlements_received +
                      2 * (((pos.quantity : ℚ) * c - (⌊(pos.quantity : ℚ) * c⌋ : ℚ)) *
                        (pos.entry_price / c)) } } := by
      simp only [Portfolio.pay_cash_settlement, List.getElem?_set_self hlen,
        Portfolio.pay_ok_of_nonneg _ _ (le_of_lt hs), List.set_set,
        Except.ok.injEq]
      rw [harith]
    refine ⟨rfl, h2, ?_⟩
    have hcne : c ≠ 0 := ne_of_gt hc
    have hadjEq : pos.adjust_for_stock_split c =
        .ok (((⌊(pos.quantity : ℚ) * c⌋ : ℚ),
              (pos.quantity : ℚ) * c - (⌊(pos.quantity : ℚ) * c⌋ : ℚ),
              pos.entry_price / c,
              ((pos.quantity : ℚ) * c - (⌊(pos.quantity : ℚ) * c⌋ : ℚ)) *
                (pos.entry_price / c)),
          { pos with
            cash_settlements_received :=
              pos.cash_settlements_received +
                ((pos.quantity : ℚ) * c - (⌊(pos.quantity : ℚ) * c⌋ : ℚ)) *
                  (pos.entry_price / c) }) := by
      rw [Position.adjust_for_stock_split, if_neg (by simp [hopen])]
    have hqe : ((pos.quantity : ℚ) * c) * (pos.entry_price / c) =
        (pos.quantity : ℚ) * pos.entry_price := by
      field_simp
      ring
    have hkey : (pos.entry_price / c) * ((⌊(⌊(pos.quantity : ℚ) * c⌋ : ℚ)⌋ : ℤ) : ℚ) =
        (pos.quantity : ℚ) * pos.entry_price -
          ((pos.quantity : ℚ) * c - (⌊(pos.quantity : ℚ) * c⌋ : ℚ)) *
            (pos.entry_price / c) := by
      rw [Int.floor_intCast, ← hqe]; ring
    have hle3 : (pos.entry_price / c) * ((⌊(⌊(pos.quantity : ℚ) * c⌋ : ℚ)⌋ : ℤ) : ℚ) ≤
        b.portfolio.balance +
          ((pos.quantity : ℚ) * c - (⌊(pos.quantity : ℚ) * c⌋ : ℚ)) *
            (pos.entry_price / c) +
          (pos.quantity : ℚ) * pos.entry_price := by
      rw [hkey]; linarith
    have hq1 : ¬ (⌊((⌊(pos.quantity : ℚ) * c⌋ : ℚ) : ℚ)⌋ < 1) := by
      rw [Int.floor_intCast]
      exact not_lt.mpr (by exact_mod_cast hw)
    have hclose : Portfolio.close_position i pos.entry_price b.today
        { b.portfolio with
          balance :=
            b.portfolio.balance +
              ((pos.quantity : ℚ) * c - (⌊(pos.quantity : ℚ) * c⌋ : ℚ)) *
                (pos.entry_price / c),
          positions :=
            b.portfolio.positions.set i
              { pos with
                cash_settlements_received :=
                  pos.cash_settlements_received +
                    2 * (((pos.quantity : ℚ) * c - (⌊(pos.quantity : ℚ) * c⌋ : ℚ)) *
                      (pos.entry_price / c)) } } =
      .ok { b.portfolio with
            balance :=
              b.portfolio.balance +
                ((pos.quantity : ℚ) * c - (⌊(pos.quantity : ℚ) * c⌋ : ℚ)) *
                  (pos.entry_price / c) +
                (pos.quantity : ℚ) * pos.entry_price,
            positions :=
              b.portfolio.positions.set i
                { pos with
                  cash_settlements_received :=
                    pos.cash_settlements_received +
                      2 * (((pos.quantity : ℚ) * c - (⌊(pos.quantity : ℚ) * c⌋ : ℚ)) *
                        (pos.entry_price / c)),
                  exit_price := pos.entry_price, is_closed := true,
                  closed_timestamp := some b.today } } := by
      simp only [Portfolio.close_position, List.getElem?_set_self hlen,
        Position.close_of_open pos.entry_price b.today
          { pos with
            cash_settlements_received :=
              pos.cash_settlements_received +
                2 * (((pos.quantity : ℚ) * c - (⌊(pos.quantity : ℚ) * c⌋ : ℚ)) *
                  (pos.entry_price / c)) } hopen,
        List.set_set]
    have hdeduct : Portfolio.deduct
        (pos.entry_price / c * ((⌊((⌊(pos.quantity : ℚ) * c⌋ : ℚ) : ℚ)⌋ : ℤ) : ℚ))
        { b.portfolio with
          balance :=
            b.portfolio.balance +
              ((pos.quantity : ℚ) * c - (⌊(pos.quantity : ℚ) * c⌋ : ℚ)) *
                (pos.entry_price / c) +
              (pos.quantity : ℚ) * pos.entry_price,
          positions :=
            b.portfolio.positions.set i
              { pos with
                cash_settlements_received :=
                  pos.cash_settlements_received +
                    2 * (((pos.quantity : ℚ) * c - (⌊(pos.quantity : ℚ) * c⌋ : ℚ)) *
                      (pos.entry_price / c)),
                exit_price := pos.entry_price, is_closed := true,
                closed_timestamp := some b.today } } =
      .ok { b.portfolio with
            balance :=
              b.portfolio.balance +
                ((pos.quantity : ℚ) * c - (⌊(pos.quantity : ℚ) * c⌋ : ℚ)) *
                  (pos.entry_price / c) +
                (pos.quantity : ℚ) * pos.entry_price -
                pos.entry_price / c *
                  ((⌊((⌊(pos.quantity : ℚ) * c⌋ : ℚ) : ℚ)⌋ : ℤ) : ℚ),
            positions :=
              b.portfolio.positions.set i
                { pos with
                  cash_settlements_received :=
                    pos.cash_settlements_received +
                      2 * (((pos.quantity : ℚ) * c - (⌊(pos.quantity : ℚ) * c⌋ : ℚ)) *
                        (pos.entry_price / c)),
                  exit_price := pos.entry_price, is_closed := true,
                  closed_timestamp := some b.today } } :=
      Portfolio.deduct_ok_of_le _ _ hle3
    simp only [Broker.process_split_for_position, hi, hadjEq, if_pos hs,
      Broker.execute_transaction, Broker.check_transaction_preconditions,
      Broker.lift, List.length_set, hlen, decide_eq_true_eq, if_true, h2,
      if_neg (not_lt.mpr hw), hclose, Portfolio.open_position, hdeduct,
      if_neg hq1, Broker.broker_state_of, List.getElem?_append,
      List.getElem?_set_self hlen]
    refine ⟨trivial, trivial, ?_⟩
    norm_num [Position.realised_pl, Position.exit_value, Position.entry_value]

/-- Concrete broker for the C10 witness: one open lot of 3 shares at entry
price 30, split 1.5-for-1 (settlement 10 on the half share at adjusted price
20). -/
def split_broker : Broker :=
  { portfolio := { positions := [three_share_position] } }

/-- Witness for C10 at `split_broker` with coefficient 1.5. -/
theorem split_cash_settlement_double_count_witness :
    Position.cash_settlements_received
        { three_share_position with cash_settlements_received := 10 } =
      three_share_position.cash_settlements_received + 10 ∧
    Portfolio.pay_cash_settlement 10 0
        { split_broker.portfolio with
          positions :=
            split_broker.portfolio.positions.set 0
              { three_share_position with cash_settlements_received := 10 } } =
      .ok { split_broker.portfolio with
            balance := split_broker.portfolio.balance + 10,
            positions :=
              split_broker.portfolio.positions.set 0
                { three_share_position with
                  cash_settlements_received :=
                    three_share_position.cash_settlements_received + 2 * 10 } } ∧
    split_broker.process_split_for_position (3/2) 0 =
      .ok (Broker.broker_state_of
        (split_broker.process_split_for_position (3/2) 0)) ∧
    (Broker.broker_state_of
        (split_broker.process_split_for_position (3/2) 0)
          ).portfolio.positions[0]? =
      some { three_share_position with
             cash_settlements_received :=
               three_share_position.cash_settlements_received + 2 * 10,
             exit_price := three_share_position.entry_price, is_closed := true,
             closed_timestamp := some split_broker.today } ∧
    Position.realised_pl
        { three_share_position with
          cash_settlements_received :=
            three_share_position.cash_settlements_received + 2 * 10,
          exit_price := three_share_position.entry_price, is_closed := true,
          closed_timestamp := some split_broker.today } =
      some (three_share_position.cash_settlements_received + 2 * 10) :=
  split_cash_settlement_double_count split_broker 0 three_share_position
    { three_share_position with cash_settlements_received := 10 }
    (3/2) 4 (1/2) 20 10
    (by with_unfolding_all decide)
    (by with_unfolding_all decide)
    (by norm_num)
    (by norm_num)
    (by norm_num)
    (by norm_num [split_broker])

end AlgoTrader
